import Mathlib

/-!
Shallow embedding of `sistemaLoja.cpp` (online-store demo: product catalog,
per-customer cart, checkout). Machine `int` values are modelled as `Int`
(overflow is undefined behaviour in the source and never reached in the
scenarios considered); `double` prices are modelled as exact rationals, and
no claim below depends on floating-point rounding. The per-component mutexes
make every operation a single critical section, so each C++ method becomes a
pure state-passing function.
-/

/-- Product entity: `class Product` of the source. -/
structure Product where
  id : Int
  name : String
  description : String
  price : Rat
  stock : Int
deriving DecidableEq

/-- Embeds `Product::decreaseStock`: returns the updated product and the
`bool` result. Fails (leaving stock unchanged) when `qty <= 0` or
`qty > stock`. -/
def Product.decreaseStock (p : Product) (qty : Int) : Product × Bool :=
  if qty ≤ 0 then (p, false)
  else if qty > p.stock then (p, false)
  else ({ p with stock := p.stock - qty }, true)

/-- Embeds `Product::increaseStock`: adds `qty` when positive, else no-op. -/
def Product.increaseStock (p : Product) (qty : Int) : Product :=
  if qty > 0 then { p with stock := p.stock + qty } else p

/-- Cart line: `struct CartItem` of the source. -/
structure CartItem where
  productId : Int
  productName : String
  unitPrice : Rat
  qty : Int
deriving DecidableEq

/-- Embeds `CartItem::subtotal`. -/
def CartItem.subtotal (it : CartItem) : Rat := it.unitPrice * (it.qty : Rat)

/-- Embeds `Order::calculateTotal`: running sum of line subtotals. -/
def calculateTotal (items : List CartItem) : Rat :=
  items.foldl (fun acc it => acc + it.subtotal) 0

/-- Order entity: `class Order` of the source. -/
structure Order where
  id : Int
  items : List CartItem
  total : Rat
deriving DecidableEq

/-- Embeds the `Order(int, vector<CartItem>)` constructor, which calls
`calculateTotal`. -/
def Order.make (id : Int) (items : List CartItem) : Order :=
  { id := id, items := items, total := calculateTotal items }

/-- The two failure modes of `Store::placeOrder`, reported in the source
through the `err` out-parameter strings "Produto não encontrado: <id>" and
"Estoque insuficiente para: <name>". -/
inductive StoreError where
  | productNotFound (productId : Int)
  | insufficientStock (productName : String)
deriving DecidableEq

/-- Store state: `class Store` (the mutex is the whole-method critical
section and needs no state). -/
structure Store where
  products : List Product
  nextOrderId : Int
deriving DecidableEq

/-- A default-constructed `Store`: no products, `nextOrderId = 1`. -/
def initStore : Store := { products := [], nextOrderId := 1 }

/-- Linear scan for the first product with the given id, as in
`Store::findProductById` and both loops of `Store::placeOrder`. -/
def findProduct : List Product → Int → Option Product
  | [], _ => none
  | p :: ps, pid => if p.id = pid then some p else findProduct ps pid

/-- Embeds `Store::addProduct` (push_back). -/
def Store.addProduct (s : Store) (p : Product) : Store :=
  { s with products := s.products ++ [p] }

/-- Embeds `Store::findProductById`. -/
def Store.findProductById (s : Store) (id : Int) : Option Product :=
  findProduct s.products id

/-- Embeds `Store::listProducts` (snapshot copy). -/
def Store.listProducts (s : Store) : List Product := s.products

/-- Embeds `Store::generateOrderId`: returns `nextOrderId++`, i.e. the old
value, advancing the counter. -/
def Store.generateOrderId (s : Store) : Int × Store :=
  (s.nextOrderId, { s with nextOrderId := s.nextOrderId + 1 })

/-- First pass of `Store::placeOrder`: scan the order lines in sequence; a
missing product stops with `productNotFound`, a line whose product has stock
below the requested qty stops with `insufficientStock`. Read-only. -/
def validateItems (products : List Product) : List CartItem → Option StoreError
  | [] => none
  | it :: rest =>
    match findProduct products it.productId with
    | none => some (StoreError.productNotFound it.productId)
    | some p =>
      if p.stock < it.qty then some (StoreError.insufficientStock p.name)
      else validateItems products rest

/-- One step of the second pass of `Store::placeOrder`: call `decreaseStock`
on the first product with the given id (nothing happens when absent). -/
def decreaseFirst : List Product → Int → Int → List Product
  | [], _, _ => []
  | p :: ps, pid, qty =>
    if p.id = pid then (p.decreaseStock qty).1 :: ps
    else p :: decreaseFirst ps pid qty

/-- Second pass of `Store::placeOrder`: apply `decreaseFirst` for each line
in sequence. -/
def applyItems : List Product → List CartItem → List Product
  | products, [] => products
  | products, it :: rest => applyItems (decreaseFirst products it.productId it.qty) rest

/-- Embeds `Store::placeOrder`: validate every line first (pure reads), and
only when all pass run the decrement pass. The whole call is one critical
section. -/
def Store.placeOrder (s : Store) (o : Order) : Option StoreError × Store :=
  match validateItems s.products o.items with
  | some e => (some e, s)
  | none => (none, { s with products := applyItems s.products o.items })

/-- The session map `unordered_map<int, vector<CartItem>>`, embedded as an
association list with unique keys (every reachable state has unique keys;
`eraseCart` below removes the key wherever it sits, matching map
semantics). -/
abbrev Carts := List (Int × List CartItem)

/-- Map lookup by customer id. -/
def lookupCart : Carts → Int → Option (List CartItem)
  | [], _ => none
  | (k, v) :: rest, cid => if k = cid then some v else lookupCart rest cid

/-- Embeds `carts[customerId]` (unordered_map `operator[]`): returns the
stored vector when present, otherwise inserts an empty vector for the key
and returns it. -/
def indexCarts (carts : Carts) (cid : Int) : List CartItem × Carts :=
  match lookupCart carts cid with
  | some v => (v, carts)
  | none => ([], carts ++ [(cid, [])])

/-- Writing back through the reference obtained from `operator[]`: replace
the value stored at the key (append when absent). -/
def setCart : Carts → Int → List CartItem → Carts
  | [], cid, v => [(cid, v)]
  | (k, w) :: rest, cid, v =>
    if k = cid then (k, v) :: rest else (k, w) :: setCart rest cid v

/-- Embeds `carts.erase(customerId)`: the key is removed from the map. -/
def eraseCart : Carts → Int → Carts
  | [], _ => []
  | (k, v) :: rest, cid =>
    if k = cid then eraseCart rest cid else (k, v) :: eraseCart rest cid

/-- The merge loop of `SessionManager::addToCart`: the first line with the
same productId gets its qty increased and the scan stops; otherwise the item
is appended. -/
def mergeItem (item : CartItem) : List CartItem → List CartItem
  | [] => [item]
  | ci :: rest =>
    if ci.productId = item.productId then { ci with qty := ci.qty + item.qty } :: rest
    else ci :: mergeItem item rest

/-- Session state: `class SessionManager`. -/
structure SessionManager where
  carts : Carts
deriving DecidableEq

/-- Embeds `SessionManager::addToCart`: `carts[customerId]` (inserting an
empty cart when absent), then merge-or-append in place. -/
def SessionManager.addToCart (sm : SessionManager) (customerId : Int) (item : CartItem) :
    SessionManager :=
  { carts := setCart (indexCarts sm.carts customerId).2 customerId
      (mergeItem item (indexCarts sm.carts customerId).1) }

/-- Embeds `SessionManager::getCart`: `return carts[customerId];` — the
`operator[]` insertion side effect is part of the state it leaves behind. -/
def SessionManager.getCart (sm : SessionManager) (customerId : Int) :
    List CartItem × SessionManager :=
  ((indexCarts sm.carts customerId).1, { carts := (indexCarts sm.carts customerId).2 })

/-- Embeds `SessionManager::clearCart`. -/
def SessionManager.clearCart (sm : SessionManager) (customerId : Int) : SessionManager :=
  { carts := eraseCart sm.carts customerId }

/-- The current cart of the customer as observed through `lookupCart` (absent and
empty both read as the empty list). -/
def cartOf (sm : SessionManager) (cid : Int) : List CartItem :=
  (lookupCart sm.carts cid).getD []

/-- Failure modes of the `POST /cart/add` handler. -/
inductive CartAddError where
  | invalidParams
  | productNotFound
  | outOfStock
deriving DecidableEq

/-- Failure modes of the `POST /checkout` handler. -/
inductive CheckoutError where
  | invalidCustomer
  | emptyCart
  | storeError (e : StoreError)
deriving DecidableEq

/-- The whole process state: the `Store` and `SessionManager` owned by
`main`. -/
structure AppState where
  store : Store
  sessions : SessionManager
deriving DecidableEq

/-- Embeds the `POST /cart/add` handler: boundary validation
(`customerId<=0 || productId<=0 || qty<=0`), product lookup, zero-stock
check, then the snapshot `CartItem` is added to the session cart. -/
def cartAddHandler (st : AppState) (customerId productId qty : Int) :
    Except CartAddError Unit × AppState :=
  if customerId ≤ 0 ∨ productId ≤ 0 ∨ qty ≤ 0 then
    (Except.error CartAddError.invalidParams, st)
  else
    match st.store.findProductById productId with
    | none => (Except.error CartAddError.productNotFound, st)
    | some p =>
      if p.stock ≤ 0 then (Except.error CartAddError.outOfStock, st)
      else
        let item : CartItem :=
          { productId := p.id, productName := p.name, unitPrice := p.price, qty := qty }
        (Except.ok (), { st with sessions := st.sessions.addToCart customerId item })

/-- Embeds the `POST /checkout` handler: reject non-positive customerId,
read the cart (with `operator[]` side effect), reject an empty cart, then
allocate an order id, build the `Order`, and run `placeOrder`; the cart is
cleared only on success. -/
def checkoutHandler (st : AppState) (customerId : Int) :
    Except CheckoutError Order × AppState :=
  if customerId ≤ 0 then (Except.error CheckoutError.invalidCustomer, st)
  else
    let cart := (st.sessions.getCart customerId).1
    let sessions1 := (st.sessions.getCart customerId).2
    if cart.isEmpty then (Except.error CheckoutError.emptyCart, { st with sessions := sessions1 })
    else
      let orderId := (st.store.generateOrderId).1
      let store1 := (st.store.generateOrderId).2
      let order := Order.make orderId cart
      match (store1.placeOrder order).1 with
      | some e =>
        (Except.error (CheckoutError.storeError e),
         { store := (store1.placeOrder order).2, sessions := sessions1 })
      | none =>
        (Except.ok order,
         { store := (store1.placeOrder order).2, sessions := sessions1.clearCart customerId })

/-- Spec-side reading of "decrements the stock of the referenced product by
the requested quantity": unconditionally subtract `qty` from the first
product with the given id. -/
def specDecrease : List Product → Int → Int → List Product
  | [], _, _ => []
  | p :: ps, pid, qty =>
    if p.id = pid then { p with stock := p.stock - qty } :: ps
    else p :: specDecrease ps pid qty

/-- Spec-side reading of "decrements stock for every line of the order". -/
def specApplyAll : List Product → List CartItem → List Product
  | products, [] => products
  | products, it :: rest => specApplyAll (specDecrease products it.productId it.qty) rest

/-- Formalisation of the claimed atomicity of `Store::placeOrder`: the call
leaves every product untouched, or decrements the stock of the referenced
product by the requested quantity for every line. -/
abbrev allOrNothing (s : Store) (o : Order) : Prop :=
  (s.placeOrder o).2.products = s.products ∨
  (s.placeOrder o).2.products = specApplyAll s.products o.items

/-- A line of an order passes the validation pass: its product is in the
catalog with stock at least the requested quantity. -/
def lineOK (products : List Product) (it : CartItem) : Prop :=
  ∃ p, findProduct products it.productId = some p ∧ it.qty ≤ p.stock

instance lineOKDecidable (products : List Product) (it : CartItem) :
    Decidable (lineOK products it) :=
  match hf : findProduct products it.productId with
  | none =>
    isFalse (by rintro ⟨p, hp, _⟩; rw [hf] at hp; cases hp)
  | some p =>
    if hs : it.qty ≤ p.stock then isTrue ⟨p, hf, hs⟩
    else isFalse (by rintro ⟨q, hq, hsq⟩; rw [hf] at hq; cases hq; exact hs hsq)

/-- The three products seeded by `main` before the server starts. -/
def demoStore : Store :=
  ((initStore.addProduct ⟨1, "Teclado Mecanico", "Teclado retroiluminado", 2999/10, 10⟩).addProduct
      ⟨2, "Mouse Gamer", "Mouse com alta precisao", 299/2, 5⟩).addProduct
    ⟨3, "Monitor 24-inch", "Full HD 75Hz", 899, 2⟩

/-- Every product in the store has non-negative stock. -/
abbrev NonNegStock (s : Store) : Prop := ∀ p ∈ s.products, 0 ≤ p.stock

/-- Fold of `SessionManager::addToCart` over a list of items for one
customer. -/
def addAll (sm : SessionManager) (cid : Int) : List CartItem → SessionManager
  | [] => sm
  | it :: rest => addAll (sm.addToCart cid it) cid rest

/-- The lines of a cart that reference the given product id. -/
def linesFor (pid : Int) : List CartItem → List CartItem
  | [] => []
  | ci :: rest =>
    if ci.productId = pid then ci :: linesFor pid rest else linesFor pid rest

/-- Sum of the quantities of a list of cart items. -/
def sumQtys (items : List CartItem) : Int := (items.map (fun it => it.qty)).sum

/-- One abstract operation on the `Store` (used to state monotonicity of the
order-id counter across arbitrary interleavings, failed checkouts
included). -/
inductive StoreOp where
  | addProduct (p : Product)
  | placeOrder (o : Order)
  | genOrderId

/-- Apply one abstract operation to the store, discarding returned values. -/
def Store.applyOp (s : Store) : StoreOp → Store
  | StoreOp.addProduct p => s.addProduct p
  | StoreOp.placeOrder o => (s.placeOrder o).2
  | StoreOp.genOrderId => (s.generateOrderId).2

/-- Run a sequence of abstract operations on the store. -/
def runOps (s : Store) : List StoreOp → Store
  | [] => s
  | op :: rest => runOps (s.applyOp op) rest

theorem findProduct_specDecrease_ne (ps : List Product) (pid qty pid2 : Int)
    (h : pid2 ≠ pid) :
    findProduct (specDecrease ps pid qty) pid2 = findProduct ps pid2 := by
  induction ps with
  | nil => rfl
  | cons p ps ih =>
    by_cases hp : p.id = pid
    · have hne : ¬ pid = pid2 := fun he => h he.symm
      simp [specDecrease, findProduct, hp, hne]
    · simp only [specDecrease, if_neg hp, findProduct]
      by_cases hq : p.id = pid2
      · simp [hq]
      · simp [hq, ih]

theorem decreaseFirst_eq_spec (ps : List Product) (pid qty : Int) (p : Product)
    (hf : findProduct ps pid = some p) (h0 : 0 ≤ qty) (hs : qty ≤ p.stock) :
    decreaseFirst ps pid qty = specDecrease ps pid qty := by
  induction ps with
  | nil => rfl
  | cons q ps ih =>
    by_cases hq : q.id = pid
    · have hpq : q = p := by simpa [findProduct, hq] using hf
      subst hpq
      simp only [decreaseFirst, specDecrease, if_pos hq]
      have hrep : (q.decreaseStock qty).1 = { q with stock := q.stock - qty } := by
        unfold Product.decreaseStock
        by_cases h1 : qty ≤ 0
        · have hq0 : qty = 0 := le_antisymm h1 h0
          subst hq0
          cases q
          simp
        · have h2 : ¬ qty > q.stock := by omega
          simp [h1, h2]
      rw [hrep]
    · simp only [decreaseFirst, specDecrease, if_neg hq]
      have hf2 : findProduct ps pid = some p := by simpa [findProduct, hq] using hf
      rw [ih hf2]

theorem applyItems_eq_spec (items : List CartItem) (ps : List Product)
    (hnd : (items.map (fun it => it.productId)).Nodup)
    (h : ∀ it ∈ items, 0 ≤ it.qty ∧
      ∃ p, findProduct ps it.productId = some p ∧ it.qty ≤ p.stock) :
    applyItems ps items = specApplyAll ps items := by
  induction items generalizing ps with
  | nil => rfl
  | cons it rest ih =>
    obtain ⟨hq0, p, hfp, hsp⟩ := h it (List.mem_cons_self it rest)
    have hstep : decreaseFirst ps it.productId it.qty = specDecrease ps it.productId it.qty :=
      decreaseFirst_eq_spec ps it.productId it.qty p hfp hq0 hsp
    simp only [applyItems, specApplyAll, hstep]
    rw [List.map_cons, List.nodup_cons] at hnd
    refine ih _ hnd.2 ?_
    intro j hj
    obtain ⟨hq0j, pj, hfj, hsj⟩ := h j (List.mem_cons_of_mem it hj)
    refine ⟨hq0j, pj, ?_, hsj⟩
    rw [findProduct_specDecrease_ne]
    · exact hfj
    · intro he
      exact hnd.1 (he ▸ List.mem_map_of_mem (fun x => x.productId) hj)

theorem validateItems_none_ok (ps : List Product) (items : List CartItem)
    (h : validateItems ps items = none) : ∀ it ∈ items, lineOK ps it := by
  induction items with
  | nil => intro it hit; cases hit
  | cons j rest ih =>
    intro it hit
    simp only [validateItems] at h
    split at h
    · cases h
    · next p hfj =>
        split at h
        · cases h
        · next hsj =>
            rcases List.mem_cons.mp hit with rfl | hmem
            · exact ⟨p, hfj, by omega⟩
            · exact ih h it hmem

/-- C1 as stated is false on the code: with a catalog holding product 1 at
stock 3 and an order carrying two lines of quantity 2 for product 1, the
call succeeds, the decrement of the first line is applied (stock 3 becomes 1) and
the one of the second line is silently skipped, so exactly a proper subset
of the lines of the order had its stock decremented. -/
theorem placeOrder_not_all_or_nothing :
    ((Store.placeOrder ⟨[⟨1, "A", "", 1, 3⟩], 1⟩
        (Order.make 9 [⟨1, "A", 1, 2⟩, ⟨1, "A", 1, 2⟩])).1 = none) ∧
    ¬ allOrNothing ⟨[⟨1, "A", "", 1, 3⟩], 1⟩
        (Order.make 9 [⟨1, "A", 1, 2⟩, ⟨1, "A", 1, 2⟩]) := by
  decide

/-- C1 (amended): for every order whose lines reference pairwise distinct
product ids and request non-negative quantities, `Store::placeOrder` is
all-or-nothing: on success the catalog equals the one in which the referenced
product of every line had its stock decremented by the requested quantity, and
on failure the store is left completely unchanged. -/
theorem placeOrder_allOrNothing_of_nodup (s : Store) (o : Order)
    (hnd : (o.items.map (fun it => it.productId)).Nodup)
    (hnn : ∀ it ∈ o.items, 0 ≤ it.qty) :
    ((s.placeOrder o).1 = none →
       (s.placeOrder o).2.products = specApplyAll s.products o.items) ∧
    (∀ e, (s.placeOrder o).1 = some e → (s.placeOrder o).2 = s) := by
  unfold Store.placeOrder
  cases hv : validateItems s.products o.items with
  | some e => simp
  | none =>
    constructor
    · intro _
      have hok := validateItems_none_ok s.products o.items hv
      exact applyItems_eq_spec o.items s.products hnd
        (fun it hit => ⟨hnn it hit, hok it hit⟩)
    · intro e he
      simp at he

/-- Witness for the amended C1 at a concrete two-line order. -/
theorem placeOrder_allOrNothing_of_nodup_witness :
    (((Order.make 1 [⟨1, "A", 1, 2⟩, ⟨2, "B", 1, 3⟩]).items.map
        (fun it => it.productId)).Nodup) ∧
    (∀ it ∈ (Order.make 1 [⟨1, "A", 1, 2⟩, ⟨2, "B", 1, 3⟩]).items, 0 ≤ it.qty) ∧
    ((((Store.mk [⟨1, "A", "", 1, 5⟩, ⟨2, "B", "", 1, 4⟩] 1).placeOrder
          (Order.make 1 [⟨1, "A", 1, 2⟩, ⟨2, "B", 1, 3⟩])).1 = none →
        ((Store.mk [⟨1, "A", "", 1, 5⟩, ⟨2, "B", "", 1, 4⟩] 1).placeOrder
          (Order.make 1 [⟨1, "A", 1, 2⟩, ⟨2, "B", 1, 3⟩])).2.products
          = specApplyAll [⟨1, "A", "", 1, 5⟩, ⟨2, "B", "", 1, 4⟩]
              (Order.make 1 [⟨1, "A", 1, 2⟩, ⟨2, "B", 1, 3⟩]).items) ∧
     (∀ e, ((Store.mk [⟨1, "A", "", 1, 5⟩, ⟨2, "B", "", 1, 4⟩] 1).placeOrder
          (Order.make 1 [⟨1, "A", 1, 2⟩, ⟨2, "B", 1, 3⟩])).1 = some e →
        ((Store.mk [⟨1, "A", "", 1, 5⟩, ⟨2, "B", "", 1, 4⟩] 1).placeOrder
          (Order.make 1 [⟨1, "A", 1, 2⟩, ⟨2, "B", 1, 3⟩])).2
          = Store.mk [⟨1, "A", "", 1, 5⟩, ⟨2, "B", "", 1, 4⟩] 1)) :=
  ⟨by decide, by decide,
   placeOrder_allOrNothing_of_nodup (Store.mk [⟨1, "A", "", 1, 5⟩, ⟨2, "B", "", 1, 4⟩] 1)
     (Order.make 1 [⟨1, "A", 1, 2⟩, ⟨2, "B", 1, 3⟩]) (by decide) (by decide)⟩

theorem validateItems_append_ok (ps : List Product) (pre rest : List CartItem)
    (hpre : ∀ j ∈ pre, lineOK ps j) :
    validateItems ps (pre ++ rest) = validateItems ps rest := by
  induction pre with
  | nil => rfl
  | cons j pre ih =>
    obtain ⟨p, hf, hs⟩ := hpre j (List.mem_cons_self j pre)
    have hns : ¬ p.stock < j.qty := by omega
    simp only [List.cons_append, validateItems, hf]
    rw [if_neg hns]
    exact ih (fun k hk => hpre k (List.mem_cons_of_mem j hk))

theorem validateItems_all_ok (ps : List Product) (items : List CartItem)
    (h : ∀ j ∈ items, lineOK ps j) : validateItems ps items = none := by
  have hskip := validateItems_append_ok ps items [] h
  simpa using hskip

/-- C2 (amended): `Store::placeOrder` scans the lines of the order in
sequence and fails at the first offending line — with ProductNotFound of
the product id of that line when the product is missing, or
InsufficientStock of the product name when its stock is below the requested quantity — and in
every failure case the store (catalog and counter) is left completely
unchanged; when every line passes, the call succeeds. -/
theorem placeOrder_firstOffendingLine (s : Store) (o : Order) :
    (∀ e, (s.placeOrder o).1 = some e → (s.placeOrder o).2 = s) ∧
    (∀ pre it post, o.items = pre ++ it :: post →
       (∀ j ∈ pre, lineOK s.products j) →
       ((findProduct s.products it.productId = none →
           (s.placeOrder o).1 = some (StoreError.productNotFound it.productId)) ∧
        (∀ p, findProduct s.products it.productId = some p → p.stock < it.qty →
           (s.placeOrder o).1 = some (StoreError.insufficientStock p.name)))) ∧
    ((∀ j ∈ o.items, lineOK s.products j) → (s.placeOrder o).1 = none) := by
  refine ⟨?_, ?_, ?_⟩
  · intro e he
    unfold Store.placeOrder at he ⊢
    cases hv : validateItems s.products o.items with
    | some x => simp [hv]
    | none => simp [hv] at he
  · intro pre it post heq hpre
    have hv : validateItems s.products o.items = validateItems s.products (it :: post) := by
      rw [heq]
      exact validateItems_append_ok s.products pre (it :: post) hpre
    constructor
    · intro hf
      have hres : validateItems s.products o.items
          = some (StoreError.productNotFound it.productId) := by
        rw [hv]; simp only [validateItems, hf]
      unfold Store.placeOrder
      rw [hres]
    · intro p hf hs
      have hres : validateItems s.products o.items
          = some (StoreError.insufficientStock p.name) := by
        rw [hv]; simp only [validateItems, hf]; rw [if_pos hs]
      unfold Store.placeOrder
      rw [hres]
  · intro hall
    have hres := validateItems_all_ok s.products o.items hall
    unfold Store.placeOrder
    rw [hres]

/-- C2 as stated is false on the code: with a catalog holding only product 1
at stock 0, and an order whose first line requests 1 unit of product 1 and
whose second line references the absent product 2, some line references a
missing product id, yet the call fails with InsufficientStock("A") — the
first offending line wins — and not with ProductNotFound(2). -/
theorem placeOrder_mixed_error :
    (findProduct [⟨1, "A", "", 1, 0⟩] 2 = none) ∧
    ((⟨2, "X", 1, 1⟩ : CartItem) ∈ (Order.make 9 [⟨1, "A", 1, 1⟩, ⟨2, "X", 1, 1⟩]).items) ∧
    ((Store.placeOrder ⟨[⟨1, "A", "", 1, 0⟩], 1⟩
        (Order.make 9 [⟨1, "A", 1, 1⟩, ⟨2, "X", 1, 1⟩])).1
        = some (StoreError.insufficientStock "A")) ∧
    (StoreError.insufficientStock "A" ≠ StoreError.productNotFound 2) := by
  decide

/-- Witness for the amended C2: a well-stocked first line followed by a line
referencing the absent product 7 makes the call fail with
ProductNotFound(7). -/
theorem placeOrder_firstOffendingLine_witness :
    (Store.placeOrder ⟨[⟨1, "A", "", 1, 5⟩], 1⟩
        (Order.make 9 [⟨1, "A", 1, 2⟩, ⟨7, "X", 1, 1⟩])).1
      = some (StoreError.productNotFound 7) :=
  ((placeOrder_firstOffendingLine ⟨[⟨1, "A", "", 1, 5⟩], 1⟩
      (Order.make 9 [⟨1, "A", 1, 2⟩, ⟨7, "X", 1, 1⟩])).2.1
    [⟨1, "A", 1, 2⟩] ⟨7, "X", 1, 1⟩ [] (by decide) (by decide)).1 (by decide)

theorem decreaseStock_nonneg (p : Product) (q : Int) (h : 0 ≤ p.stock) :
    0 ≤ ((p.decreaseStock q).1).stock := by
  unfold Product.decreaseStock
  by_cases h1 : q ≤ 0
  · rw [if_pos h1]
    exact h
  · by_cases h2 : q > p.stock
    · rw [if_neg h1, if_pos h2]
      exact h
    · rw [if_neg h1, if_neg h2]
      show 0 ≤ p.stock - q
      omega

theorem decreaseFirst_nonneg (ps : List Product) (pid qty : Int)
    (h : ∀ p ∈ ps, 0 ≤ p.stock) : ∀ p ∈ decreaseFirst ps pid qty, 0 ≤ p.stock := by
  induction ps with
  | nil => intro p hp; cases hp
  | cons q ps ih =>
    intro p hp
    by_cases hq : q.id = pid
    · simp only [decreaseFirst, if_pos hq] at hp
      rcases List.mem_cons.mp hp with rfl | hmem
      · exact decreaseStock_nonneg q qty (h q (List.mem_cons_self q ps))
      · exact h p (List.mem_cons_of_mem q hmem)
    · simp only [decreaseFirst, if_neg hq] at hp
      rcases List.mem_cons.mp hp with rfl | hmem
      · exact h p (List.mem_cons_self p ps)
      · exact ih (fun r hr => h r (List.mem_cons_of_mem q hr)) p hmem

theorem applyItems_nonneg (items : List CartItem) (ps : List Product)
    (h : ∀ p ∈ ps, 0 ≤ p.stock) : ∀ p ∈ applyItems ps items, 0 ≤ p.stock := by
  induction items generalizing ps with
  | nil => exact h
  | cons it rest ih =>
    exact ih _ (decreaseFirst_nonneg ps it.productId it.qty h)

/-- C3: starting from any store state in which the stock of every product
is non-negative, each operation preserves the invariant: addProduct with a
non-negative-stock product, placeOrder (failed or successful), and the
product-level decreaseStock and increaseStock never produce a negative
stock. -/
theorem stockInvariant (s : Store) (h : NonNegStock s) :
    (∀ p : Product, 0 ≤ p.stock → NonNegStock (s.addProduct p)) ∧
    (∀ o : Order, NonNegStock ((s.placeOrder o).2)) ∧
    (∀ (p : Product) (q : Int), 0 ≤ p.stock → 0 ≤ ((p.decreaseStock q).1).stock) ∧
    (∀ (p : Product) (q : Int), 0 ≤ p.stock → 0 ≤ (p.increaseStock q).stock) := by
  refine ⟨?_, ?_, ?_, ?_⟩
  · intro p hp q hq
    unfold Store.addProduct at hq
    simp only at hq
    rcases List.mem_append.mp hq with hmem | hone
    · exact h q hmem
    · rcases List.mem_singleton.mp hone with rfl
      exact hp
  · intro o
    unfold Store.placeOrder
    cases hv : validateItems s.products o.items with
    | some e => exact h
    | none =>
      intro p hp
      simp only at hp
      exact applyItems_nonneg o.items s.products (fun q hq => h q hq) p hp
  · intro p q hp
    exact decreaseStock_nonneg p q hp
  · intro p q hp
    unfold Product.increaseStock
    by_cases h1 : q > 0
    · rw [if_pos h1]
      show 0 ≤ p.stock + q
      omega
    · rw [if_neg h1]
      exact hp

/-- Witness for C3 on the store seeded by `main`: the invariant holds there
and is preserved by a concrete successful checkout order. -/
theorem stockInvariant_witness :
    NonNegStock demoStore ∧
    NonNegStock ((demoStore.placeOrder (Order.make 1 [⟨3, "Monitor 24-inch", 899, 2⟩])).2) :=
  ⟨by decide,
   (stockInvariant demoStore (by decide)).2.1 (Order.make 1 [⟨3, "Monitor 24-inch", 899, 2⟩])⟩

theorem lookupCart_setCart_self (m : Carts) (cid : Int) (v : List CartItem) :
    lookupCart (setCart m cid v) cid = some v := by
  induction m with
  | nil => simp [setCart, lookupCart]
  | cons kv rest ih =>
    obtain ⟨k, w⟩ := kv
    by_cases hk : k = cid
    · simp [setCart, hk, lookupCart]
    · simp [setCart, hk, lookupCart, ih]

theorem cartOf_addToCart (sm : SessionManager) (cid : Int) (it : CartItem) :
    cartOf (sm.addToCart cid it) cid = mergeItem it (cartOf sm cid) := by
  unfold cartOf SessionManager.addToCart indexCarts
  cases hl : lookupCart sm.carts cid with
  | some v => simp [lookupCart_setCart_self]
  | none => simp [lookupCart_setCart_self]

theorem linesFor_append (pid : Int) (a b : List CartItem) :
    linesFor pid (a ++ b) = linesFor pid a ++ linesFor pid b := by
  induction a with
  | nil => rfl
  | cons ci rest ih =>
    by_cases hc : ci.productId = pid
    · simp [linesFor, hc, ih]
    · simp [linesFor, hc, ih]

theorem mergeItem_no_match (pid : Int) (it : CartItem) (c : List CartItem)
    (hpid : it.productId = pid) (h : linesFor pid c = []) :
    mergeItem it c = c ++ [it] := by
  induction c with
  | nil => rfl
  | cons ci rest ih =>
    have hci : ¬ ci.productId = pid := by
      intro hc
      simp [linesFor, hc] at h
    rw [linesFor, if_neg hci] at h
    have hne : ¬ ci.productId = it.productId := by rw [hpid]; exact hci
    simp [mergeItem, hne, ih h]

theorem linesFor_mergeItem_single (pid : Int) (it L : CartItem) (c : List CartItem)
    (hpid : it.productId = pid) (h : linesFor pid c = [L]) :
    linesFor pid (mergeItem it c) = [{ L with qty := L.qty + it.qty }] := by
  induction c with
  | nil => cases h
  | cons ci rest ih =>
    by_cases hc : ci.productId = pid
    · rw [linesFor, if_pos hc] at h
      injection h with h1 h2
      subst h1
      have hcit : ci.productId = it.productId := by rw [hpid]; exact hc
      rw [mergeItem, if_pos hcit]
      rw [linesFor, if_pos hc, h2]
    · rw [linesFor, if_neg hc] at h
      have hne : ¬ ci.productId = it.productId := by rw [hpid]; exact hc
      rw [mergeItem, if_neg hne]
      rw [linesFor, if_neg hc]
      exact ih h

theorem linesFor_addAll (cid pid : Int) (its : List CartItem) :
    ∀ (sm : SessionManager) (L : CartItem),
      linesFor pid (cartOf sm cid) = [L] →
      (∀ it ∈ its, it.productId = pid) →
      linesFor pid (cartOf (addAll sm cid its) cid)
        = [{ L with qty := L.qty + sumQtys its }] := by
  induction its with
  | nil =>
    intro sm L h _
    rw [addAll, h]
    have hz : L.qty + sumQtys [] = L.qty := by simp [sumQtys]
    rw [hz]
  | cons it0 rest ih =>
    intro sm L h hall
    have h1 : linesFor pid (cartOf (sm.addToCart cid it0) cid)
        = [{ L with qty := L.qty + it0.qty }] := by
      rw [cartOf_addToCart]
      exact linesFor_mergeItem_single pid it0 L (cartOf sm cid)
        (hall it0 (List.mem_cons_self it0 rest)) h
    have h2 := ih (sm.addToCart cid it0) { L with qty := L.qty + it0.qty } h1
      (fun j hj => hall j (List.mem_cons_of_mem it0 hj))
    rw [addAll, h2]
    have hs : L.qty + it0.qty + sumQtys rest = L.qty + sumQtys (it0 :: rest) := by
      simp [sumQtys]
      omega
    rw [hs]

/-- C7: for every non-empty sequence of addToCart calls for the same
customer and the same product id, starting from a state whose cart for that
customer has no line for that product id, the resulting cart holds exactly
one line for the product id, whose quantity is the sum of all submitted
quantities (the name and unit price snapshots are those of the first
call). -/
theorem addToCart_merges_quantities (sm : SessionManager) (cid pid : Int)
    (first : CartItem) (rest : List CartItem)
    (hfirst : first.productId = pid)
    (hall : ∀ it ∈ rest, it.productId = pid)
    (hclean : linesFor pid (cartOf sm cid) = []) :
    linesFor pid (cartOf (addAll sm cid (first :: rest)) cid)
      = [{ first with qty := sumQtys (first :: rest) }] := by
  have h1 : linesFor pid (cartOf (sm.addToCart cid first) cid) = [first] := by
    rw [cartOf_addToCart, mergeItem_no_match pid first (cartOf sm cid) hfirst hclean,
      linesFor_append, hclean]
    simp [linesFor, hfirst]
  have h2 := linesFor_addAll cid pid rest (sm.addToCart cid first) first h1 hall
  rw [addAll, h2]
  have hs : first.qty + sumQtys rest = sumQtys (first :: rest) := by
    simp [sumQtys]
  rw [hs]

/-- Witness for C7: two adds of product 5 with quantities 2 and 3 for
customer 7 on an empty session map leave a single line with quantity 5. -/
theorem addToCart_merges_quantities_witness :
    ((⟨5, "x", 1, 2⟩ : CartItem).productId = 5) ∧
    (∀ it ∈ [(⟨5, "x", 1, 3⟩ : CartItem)], it.productId = 5) ∧
    (linesFor 5 (cartOf (SessionManager.mk []) 7) = []) ∧
    (linesFor 5 (cartOf (addAll (SessionManager.mk []) 7 [⟨5, "x", 1, 2⟩, ⟨5, "x", 1, 3⟩]) 7)
      = [⟨5, "x", 1, 5⟩]) :=
  ⟨by decide, by decide, by decide,
   addToCart_merges_quantities (SessionManager.mk []) 7 5 ⟨5, "x", 1, 2⟩ [⟨5, "x", 1, 3⟩]
     (by decide) (by decide) (by decide)⟩

/-- C8 as stated is false on the code: `SessionManager::addToCart` performs
no quantity validation — submitting qty -3 for product 1 to a cart already
holding 5 units changes the stored line to 2 units instead of rejecting the
request and leaving the cart unchanged. -/
theorem addToCart_accepts_nonpositive_qty :
    ((⟨1, "A", 1, -3⟩ : CartItem).qty ≤ 0) ∧
    (cartOf ((SessionManager.mk [(1, [⟨1, "A", 1, 5⟩])]).addToCart 1 ⟨1, "A", 1, -3⟩) 1
       = [⟨1, "A", 1, 2⟩]) ∧
    (cartOf (SessionManager.mk [(1, [⟨1, "A", 1, 5⟩])]) 1 = [⟨1, "A", 1, 5⟩]) ∧
    (([⟨1, "A", 1, 2⟩] : List CartItem) ≠ [⟨1, "A", 1, 5⟩]) := by
  decide

/-- C8 (amended): requests with qty ≤ 0 are rejected only at the HTTP
boundary — the `POST /cart/add` handler answers invalid-params and leaves
the whole state unchanged — while the core `SessionManager::addToCart`
applies the merge rule unconditionally, with no quantity check of its
own. -/
theorem cartAdd_boundary_validation (st : AppState) (cid pid qty : Int)
    (sm : SessionManager) (cid2 : Int) (it : CartItem) (hq : qty ≤ 0) :
    cartAddHandler st cid pid qty = (Except.error CartAddError.invalidParams, st) ∧
    cartOf (sm.addToCart cid2 it) cid2 = mergeItem it (cartOf sm cid2) := by
  constructor
  · unfold cartAddHandler
    rw [if_pos (Or.inr (Or.inr hq))]
  · exact cartOf_addToCart sm cid2 it

/-- Witness for the amended C8: the boundary rejects a qty 0 request, and
the core, called directly with a qty -3 item, still merges. -/
theorem cartAdd_boundary_validation_witness :
    ((0 : Int) ≤ 0) ∧
    (cartAddHandler ⟨demoStore, ⟨[]⟩⟩ 1 1 0
       = (Except.error CartAddError.invalidParams, ⟨demoStore, ⟨[]⟩⟩)) ∧
    (cartOf ((SessionManager.mk [(1, [⟨1, "A", 1, 5⟩])]).addToCart 1 ⟨1, "A", 1, -3⟩) 1
       = mergeItem ⟨1, "A", 1, -3⟩ (cartOf (SessionManager.mk [(1, [⟨1, "A", 1, 5⟩])]) 1)) :=
  ⟨by decide,
   (cartAdd_boundary_validation ⟨demoStore, ⟨[]⟩⟩ 1 1 0
      (SessionManager.mk [(1, [⟨1, "A", 1, 5⟩])]) 1 ⟨1, "A", 1, -3⟩ (by decide)).1,
   (cartAdd_boundary_validation ⟨demoStore, ⟨[]⟩⟩ 1 1 0
      (SessionManager.mk [(1, [⟨1, "A", 1, 5⟩])]) 1 ⟨1, "A", 1, -3⟩ (by decide)).2⟩

theorem lookupCart_eraseCart_self (m : Carts) (cid : Int) :
    lookupCart (eraseCart m cid) cid = none := by
  induction m with
  | nil => rfl
  | cons kv rest ih =>
    obtain ⟨k, v⟩ := kv
    by_cases hk : k = cid
    · simpa [eraseCart, hk] using ih
    · simp [eraseCart, hk, lookupCart, ih]

theorem eraseCart_noop (m : Carts) (cid : Int) (h : lookupCart m cid = none) :
    eraseCart m cid = m := by
  induction m with
  | nil => rfl
  | cons kv rest ih =>
    obtain ⟨k, v⟩ := kv
    by_cases hk : k = cid
    · rw [lookupCart, if_pos hk] at h
      cases h
    · rw [lookupCart, if_neg hk] at h
      simp [eraseCart, hk, ih h]

/-- C9: `SessionManager::clearCart` removes the cart of the customer (its key is
gone from the map), is idempotent, leaves `getCart` returning the empty
sequence immediately afterwards, and clearing an absent cart is a no-op
rather than an error. -/
theorem clearCart_spec (sm : SessionManager) (cid : Int) :
    (lookupCart (sm.clearCart cid).carts cid = none) ∧
    ((sm.clearCart cid).clearCart cid = sm.clearCart cid) ∧
    (((sm.clearCart cid).getCart cid).1 = []) ∧
    (lookupCart sm.carts cid = none → sm.clearCart cid = sm) := by
  refine ⟨lookupCart_eraseCart_self sm.carts cid, ?_, ?_, ?_⟩
  · unfold SessionManager.clearCart
    rw [eraseCart_noop _ cid (lookupCart_eraseCart_self sm.carts cid)]
  · have h := lookupCart_eraseCart_self sm.carts cid
    unfold SessionManager.getCart indexCarts SessionManager.clearCart
    simp only at h ⊢
    rw [h]
  · intro h
    unfold SessionManager.clearCart
    rw [eraseCart_noop sm.carts cid h]

/-- Witness for C9 at a state where customer 1 has no cart: clearing is a
no-op. -/
theorem clearCart_spec_witness :
    (lookupCart [(2, [(⟨9, "A", 1, 1⟩ : CartItem)])] 1 = none) ∧
    ((SessionManager.mk [(2, [⟨9, "A", 1, 1⟩])]).clearCart 1
       = SessionManager.mk [(2, [⟨9, "A", 1, 1⟩])]) :=
  ⟨by decide, (clearCart_spec (SessionManager.mk [(2, [⟨9, "A", 1, 1⟩])]) 1).2.2.2 (by decide)⟩

theorem lookupCart_append (a b : Carts) (cid : Int) :
    lookupCart (a ++ b) cid
      = match lookupCart a cid with
        | some v => some v
        | none => lookupCart b cid := by
  induction a with
  | nil => rfl
  | cons kv rest ih =>
    obtain ⟨k, v⟩ := kv
    by_cases hk : k = cid
    · simp [lookupCart, hk]
    · simp [lookupCart, hk, ih]

theorem eraseCart_append (a b : Carts) (cid : Int) :
    eraseCart (a ++ b) cid = eraseCart a cid ++ eraseCart b cid := by
  induction a with
  | nil => rfl
  | cons kv rest ih =>
    obtain ⟨k, v⟩ := kv
    by_cases hk : k = cid
    · simp [eraseCart, hk, ih]
    · simp [eraseCart, hk, ih]

/-- C10: for a customer with no cart, `SessionManager::getCart` returns the
empty sequence but is not a pure read — the `operator[]` access appends a
(customerId, empty) entry to the session map — and the inserted empty entry
is observationally equivalent to an absent cart: a subsequent addToCart for
that customer produces the identical state an addToCart from the original
state produces, a subsequent getCart returns the same answer, clearCart
yields the identical state clearCart yields from the original state, and
every lookup of another customer is unaffected. -/
theorem getCart_absent_inserts (sm : SessionManager) (cid : Int)
    (h : lookupCart sm.carts cid = none) :
    ((sm.getCart cid).1 = []) ∧
    ((sm.getCart cid).2.carts = sm.carts ++ [(cid, [])]) ∧
    (lookupCart (sm.getCart cid).2.carts cid = some []) ∧
    (∀ it, ((sm.getCart cid).2).addToCart cid it = sm.addToCart cid it) ∧
    (((sm.getCart cid).2).getCart cid = sm.getCart cid) ∧
    (((sm.getCart cid).2).clearCart cid = sm.clearCart cid) ∧
    (∀ cid2, cid2 ≠ cid →
       lookupCart (sm.getCart cid).2.carts cid2 = lookupCart sm.carts cid2) := by
  have hg : sm.getCart cid = ([], SessionManager.mk (sm.carts ++ [(cid, [])])) := by
    unfold SessionManager.getCart indexCarts
    rw [h]
  have hlk : lookupCart (sm.carts ++ [(cid, [])]) cid = some [] := by
    rw [lookupCart_append, h]
    simp [lookupCart]
  refine ⟨by rw [hg], by rw [hg], ?_, ?_, ?_, ?_, ?_⟩
  · rw [hg]
    exact hlk
  · intro it
    rw [hg]
    unfold SessionManager.addToCart indexCarts
    rw [h]
    simp only [hlk]
  · simp [SessionManager.getCart, indexCarts, h, hlk]
  · rw [hg]
    unfold SessionManager.clearCart
    simp only
    rw [eraseCart_append]
    simp [eraseCart]
  · intro cid2 hne
    rw [hg]
    simp only
    rw [lookupCart_append]
    cases hl2 : lookupCart sm.carts cid2 with
    | some v => rfl
    | none =>
      simp only [lookupCart]
      rw [if_neg (fun he => hne he.symm)]

/-- Witness for C10 on the empty session map and customer 1. -/
theorem getCart_absent_inserts_witness :
    (lookupCart ([] : Carts) 1 = none) ∧
    (((SessionManager.mk []).getCart 1).1 = []) ∧
    (((SessionManager.mk []).getCart 1).2.carts = [(1, [])]) ∧
    (((SessionManager.mk []).getCart 1).2.clearCart 1 = (SessionManager.mk []).clearCart 1) :=
  ⟨by decide,
   (getCart_absent_inserts (SessionManager.mk []) 1 (by decide)).1,
   (getCart_absent_inserts (SessionManager.mk []) 1 (by decide)).2.1,
   (getCart_absent_inserts (SessionManager.mk []) 1 (by decide)).2.2.2.2.2.1⟩

/-- C4: for a customer with a non-empty cart (and the positive id every cart
owner has at the HTTP boundary), when the placeOrder step of checkout fails
the specific store error is propagated to the caller and the session state —
in particular the cart of that customer — is left exactly as it was, and the cart
is cleared exactly when placeOrder succeeds. -/
theorem checkout_failure_keeps_cart (st : AppState) (cid : Int) (cart : List CartItem)
    (hcid : 0 < cid)
    (hlook : lookupCart st.sessions.carts cid = some cart)
    (hne : cart ≠ []) :
    (∀ e, validateItems st.store.products cart = some e →
       (checkoutHandler st cid).1 = Except.error (CheckoutError.storeError e) ∧
       (checkoutHandler st cid).2.sessions = st.sessions) ∧
    (validateItems st.store.products cart = none →
       (checkoutHandler st cid).2.sessions = st.sessions.clearCart cid) := by
  have hc : ¬ cid ≤ 0 := by omega
  have hget1 : (st.sessions.getCart cid).1 = cart := by
    unfold SessionManager.getCart indexCarts
    rw [hlook]
  have hget2 : (st.sessions.getCart cid).2 = st.sessions := by
    unfold SessionManager.getCart indexCarts
    rw [hlook]
  have hempty : cart.isEmpty = false := by
    cases cart with
    | nil => exact absurd rfl hne
    | cons a b => rfl
  constructor
  · intro e hv
    unfold checkoutHandler
    rw [if_neg hc]
    simp only [hget1, hget2, hempty, Store.placeOrder, Store.generateOrderId, Order.make]
    simp only [Bool.false_eq_true, if_false]
    simp only [hv]
    exact ⟨trivial, trivial⟩
  · intro hv
    unfold checkoutHandler
    rw [if_neg hc]
    simp only [hget1, hget2, hempty, Store.placeOrder, Store.generateOrderId, Order.make]
    simp only [Bool.false_eq_true, if_false]
    simp only [hv]

/-- Witness for C4: the spec scenario — product 3 with stock 2, a cart of 5
units — fails with InsufficientStock and the cart is untouched. -/
theorem checkout_failure_keeps_cart_witness :
    ((0 : Int) < 1) ∧
    (lookupCart [(1, [(⟨3, "M", 1, 5⟩ : CartItem)])] 1 = some [⟨3, "M", 1, 5⟩]) ∧
    (validateItems [⟨3, "M", "", 1, 2⟩] [⟨3, "M", 1, 5⟩]
       = some (StoreError.insufficientStock "M")) ∧
    ((checkoutHandler
        (AppState.mk (Store.mk [⟨3, "M", "", 1, 2⟩] 1)
          (SessionManager.mk [(1, [⟨3, "M", 1, 5⟩])])) 1).1
       = Except.error (CheckoutError.storeError (StoreError.insufficientStock "M"))) ∧
    ((checkoutHandler
        (AppState.mk (Store.mk [⟨3, "M", "", 1, 2⟩] 1)
          (SessionManager.mk [(1, [⟨3, "M", 1, 5⟩])])) 1).2.sessions
       = SessionManager.mk [(1, [⟨3, "M", 1, 5⟩])]) :=
  ⟨by decide, by decide, by decide,
   ((checkout_failure_keeps_cart
       (AppState.mk (Store.mk [⟨3, "M", "", 1, 2⟩] 1)
         (SessionManager.mk [(1, [⟨3, "M", 1, 5⟩])])) 1 [⟨3, "M", 1, 5⟩]
       (by decide) (by decide) (by decide)).1
     (StoreError.insufficientStock "M") (by decide)).1,
   ((checkout_failure_keeps_cart
       (AppState.mk (Store.mk [⟨3, "M", "", 1, 2⟩] 1)
         (SessionManager.mk [(1, [⟨3, "M", 1, 5⟩])])) 1 [⟨3, "M", 1, 5⟩]
       (by decide) (by decide) (by decide)).1
     (StoreError.insufficientStock "M") (by decide)).2⟩

/-- C5: for a customer with a positive id whose cart is empty or absent,
checkout fails with EmptyCart and the Store — the catalog and the
next-order-id counter — is left completely unchanged (no order id is
allocated). -/
theorem checkout_emptyCart (st : AppState) (cid : Int)
    (hcid : 0 < cid)
    (hempty : lookupCart st.sessions.carts cid = none ∨
              lookupCart st.sessions.carts cid = some []) :
    ((checkoutHandler st cid).1 = Except.error CheckoutError.emptyCart) ∧
    ((checkoutHandler st cid).2.store = st.store) := by
  have hc : ¬ cid ≤ 0 := by omega
  have h1 : (st.sessions.getCart cid).1 = [] := by
    rcases hempty with h | h <;>
      (unfold SessionManager.getCart indexCarts; rw [h])
  unfold checkoutHandler
  rw [if_neg hc]
  simp only [h1, List.isEmpty_nil, if_true]
  exact ⟨trivial, trivial⟩

/-- Witness for C5: checkout for customer 1 with no cart at all on the
seeded store. -/
theorem checkout_emptyCart_witness :
    ((0 : Int) < 1) ∧
    ((checkoutHandler (AppState.mk demoStore (SessionManager.mk [])) 1).1
       = Except.error CheckoutError.emptyCart) ∧
    ((checkoutHandler (AppState.mk demoStore (SessionManager.mk [])) 1).2.store
       = demoStore) :=
  ⟨by decide,
   (checkout_emptyCart (AppState.mk demoStore (SessionManager.mk [])) 1 (by decide)
      (Or.inl (by decide))).1,
   (checkout_emptyCart (AppState.mk demoStore (SessionManager.mk [])) 1 (by decide)
      (Or.inl (by decide))).2⟩

theorem nextOrderId_mono_op (s : Store) (op : StoreOp) :
    s.nextOrderId ≤ (s.applyOp op).nextOrderId := by
  cases op with
  | addProduct p =>
    have h : (s.applyOp (StoreOp.addProduct p)).nextOrderId = s.nextOrderId := rfl
    omega
  | placeOrder o =>
    have h : (s.applyOp (StoreOp.placeOrder o)).nextOrderId = s.nextOrderId := by
      show ((s.placeOrder o).2).nextOrderId = s.nextOrderId
      unfold Store.placeOrder
      cases validateItems s.products o.items <;> rfl
    omega
  | genOrderId =>
    have h : (s.applyOp StoreOp.genOrderId).nextOrderId = s.nextOrderId + 1 := rfl
    omega

theorem nextOrderId_mono (ops : List StoreOp) :
    ∀ s : Store, s.nextOrderId ≤ (runOps s ops).nextOrderId := by
  induction ops with
  | nil => intro s; exact le_refl s.nextOrderId
  | cons op rest ih =>
    intro s
    exact le_trans (nextOrderId_mono_op s op) (ih (s.applyOp op))

/-- C6: `Store::generateOrderId` returns 1 on the first call of a fresh store,
each call returns the current counter and advances it by one, and across any
sequence of intervening store operations — additions, checkouts that fail or
succeed at placeOrder, further allocations — a later call always returns a
strictly larger id than an earlier one, so no id is ever returned twice. -/
theorem generateOrderId_monotone :
    ((initStore.generateOrderId).1 = 1) ∧
    (∀ s : Store, (s.generateOrderId).1 = s.nextOrderId ∧
       (s.generateOrderId).2.nextOrderId = s.nextOrderId + 1) ∧
    (∀ (s : Store) (ops : List StoreOp),
       (s.generateOrderId).1 < ((runOps (s.generateOrderId).2 ops).generateOrderId).1) := by
  refine ⟨rfl, fun s => ⟨rfl, rfl⟩, ?_⟩
  intro s ops
  have h := nextOrderId_mono ops (s.generateOrderId).2
  show s.nextOrderId < (runOps (s.generateOrderId).2 ops).nextOrderId
  have h2 : (s.generateOrderId).2.nextOrderId = s.nextOrderId + 1 := rfl
  omega
